import Mathlib

/-!
Verification development for the ts-svelte language-service layer:
snapshot cache, engine-instance registry, bidirectional position mapper and
result translation (sources: `src/plugins/ts-svelte/service.ts`,
`src/plugins/ts-svelte/DocumentSnapshot.ts`, `src/plugins/TSSveltePlugin.ts`
and the two companion modules).

Modelling conventions:
* Text is abstracted by the lengths of its lines (positions and offsets do
  not depend on the characters themselves, only on where the line breaks
  are).  A newline is one character; `textLength` is the total text length.
* `offsetOfPosition` / `positionOfOffset` model the standard LSP `TextDocument.offsetAt`
  / `positionOfOffset` conversions (0-based lines and characters, clamping out of
  range input) which is also the behaviour of the TypeScript
  `getLineAndCharacterOfPosition` / `getPositionOfLineAndCharacter` pair on
  in-bounds input.  `Document` itself is part of the repository's `api`
  module, which is not among the provided sources; its position conversions
  are modelled from the spec's description of 0-based text offsets.
* JavaScript `x || d` on a possibly-null number is `jsOr`: it yields `d`
  when `x` is null (`none`) or `0` (falsy), and `x` otherwise.
* Fallible external calls (the `svelte2tsx` converter, which may throw) are
  modelled with `Option`; `none` models a thrown exception.
* Reference identity of engine instances is modelled by a generation
  counter: `ts.createLanguageService` always yields a fresh identity.
-/

/-- Line lengths of a character list: split on the newline character
(codepoint 10), recording the length of each line.  Always nonempty. -/
def lineLengthsAux : List Char → Nat → List Nat
  | [], cur => [cur]
  | c :: rest, cur =>
    if c = Char.ofNat 10 then cur :: lineLengthsAux rest 0
    else lineLengthsAux rest (cur + 1)

/-- Line lengths of a string (the abstraction of a text used for all
position arithmetic). -/
def lineLengths (s : String) : List Nat := lineLengthsAux s.data 0

/-- Total number of characters of a text with the given line lengths:
all line characters plus one newline between consecutive lines. -/
def textLength (lens : List Nat) : Nat := lens.sum + (lens.length - 1)

/-- Offset of the first character of line `line` (0-based). -/
def lineStart (lens : List Nat) (line : Nat) : Nat := (lens.take line).sum + line

/-- Convert a 0-based (line, character) pair to a text offset, clamping the
character to the line length and an out-of-range line to the text end
(LSP `TextDocument.offsetAt` semantics). -/
def offsetOfPosition (lens : List Nat) (pos : Nat × Nat) : Nat :=
  if pos.1 < lens.length then lineStart lens pos.1 + min pos.2 (lens.getD pos.1 0)
  else textLength lens

/-- Worker for `positionOfOffset`: walk the lines, consuming `len + 1` characters
per non-final line. -/
def positionOfOffsetAux : List Nat → Nat → Nat → Nat × Nat
  | [], _, line => (line, 0)
  | len :: rest, offset, line =>
    if offset ≤ len ∨ rest = [] then (line, min offset len)
    else positionOfOffsetAux rest (offset - (len + 1)) (line + 1)

/-- Convert a text offset to a 0-based (line, character) pair, clamping an
out-of-range offset to the text end (LSP `TextDocument.positionAt`
semantics). -/
def positionOfOffset (lens : List Nat) (offset : Nat) : Nat × Nat :=
  positionOfOffsetAux lens offset 0

/-- JavaScript `x || d` for a possibly-null number `x`: both `null` and `0`
are falsy. -/
def jsOr : Option Nat → Nat → Nat
  | none, d => d
  | some 0, d => d
  | some (n + 1), _ => n + 1

theorem lineLengthsAux_ne_nil (l : List Char) (cur : Nat) :
    lineLengthsAux l cur ≠ [] := by
  induction l generalizing cur with
  | nil => simp [lineLengthsAux]
  | cons c rest ih =>
    simp only [lineLengthsAux]
    split
    · simp
    · exact ih _

theorem lineLengths_ne_nil (s : String) : lineLengths s ≠ [] :=
  lineLengthsAux_ne_nil s.data 0

theorem positionOfOffsetAux_spec (lens : List Nat) :
    ∀ (line c base : Nat), line < lens.length → c ≤ lens.getD line 0 →
      positionOfOffsetAux lens ((lens.take line).sum + line + c) base = (base + line, c) := by
  induction lens with
  | nil => intro line c base h; simp at h
  | cons len rest ih =>
    intro line c base hline hc
    match line with
    | 0 =>
      have hc0 : c ≤ len := by simpa using hc
      simp only [List.take_zero, List.sum_nil, Nat.zero_add, Nat.add_zero]
      rw [positionOfOffsetAux, if_pos (Or.inl hc0)]
      simp [Nat.min_eq_left hc0]
    | line' + 1 =>
      have hrest : line' < rest.length := by
        simpa [Nat.succ_lt_succ_iff] using hline
      have hc' : c ≤ rest.getD line' 0 := by simpa using hc
      have hne : rest ≠ [] := by
        intro h; rw [h] at hrest; simp at hrest
      have harith : (len :: rest).take (line' + 1) = len :: rest.take line' := rfl
      rw [harith]
      have hsum : (len :: rest.take line').sum = len + (rest.take line').sum := by simp
      rw [hsum, positionOfOffsetAux]
      have hoff : ¬(len + (rest.take line').sum + (line' + 1) + c ≤ len ∨ rest = []) := by
        push_neg
        exact ⟨by omega, hne⟩
      rw [if_neg hoff]
      have hsub : len + (rest.take line').sum + (line' + 1) + c - (len + 1)
          = (rest.take line').sum + line' + c := by omega
      rw [hsub, ih line' c (base + 1) hrest hc']
      have : base + 1 + line' = base + (line' + 1) := by omega
      rw [this]

theorem positionOfOffset_offsetOfPosition (lens : List Nat) (line c : Nat)
    (h1 : line < lens.length) (h2 : c ≤ lens.getD line 0) :
    positionOfOffset lens (offsetOfPosition lens (line, c)) = (line, c) := by
  have hoff : offsetOfPosition lens (line, c) = (lens.take line).sum + line + c := by
    simp only [offsetOfPosition]
    rw [if_pos h1, lineStart, Nat.min_eq_left h2]
  rw [hoff, positionOfOffset, positionOfOffsetAux_spec lens line c 0 h1 h2]
  simp

theorem positionOfOffsetAux_le (lens : List Nat) :
    ∀ (offset base : Nat), lens ≠ [] → offset ≤ textLength lens →
      ∃ line c, positionOfOffsetAux lens offset base = (base + line, c) ∧
        line < lens.length ∧ c ≤ lens.getD line 0 ∧
        (lens.take line).sum + line + c = offset := by
  induction lens with
  | nil => intro _ _ h; exact absurd rfl h
  | cons len rest ih =>
    intro offset base _ hle
    by_cases hcase : offset ≤ len ∨ rest = []
    · refine ⟨0, min offset len, ?_, by simp, Nat.min_le_right offset len, ?_⟩
      · rw [positionOfOffsetAux, if_pos hcase]; simp
      · rcases hcase with h | h
        · simp [Nat.min_eq_left h]
        · subst h
          have : offset ≤ len := by
            simpa [textLength] using hle
          simp [Nat.min_eq_left this]
    · push_neg at hcase
      obtain ⟨hgt, hne⟩ := hcase
      have hlen1 : 1 ≤ rest.length := by
        cases rest with
        | nil => exact absurd rfl hne
        | cons a l => simp
      have hle' : offset - (len + 1) ≤ textLength rest := by
        simp only [textLength, List.sum_cons, List.length_cons] at hle ⊢
        omega
      obtain ⟨line, c, heq, hlt, hc, hsum⟩ := ih (offset - (len + 1)) (base + 1) hne hle'
      refine ⟨line + 1, c, ?_, by simpa [Nat.succ_lt_succ_iff] using hlt, by simpa using hc, ?_⟩
      · rw [positionOfOffsetAux, if_neg (by push_neg; exact ⟨hgt, hne⟩), heq]
        have : base + 1 + line = base + (line + 1) := by omega
        rw [this]
      · have : (len :: rest).take (line + 1) = len :: rest.take line := rfl
        rw [this]
        simp only [List.sum_cons]
        omega

theorem offsetOfPosition_positionOfOffset (lens : List Nat) (offset : Nat)
    (h0 : lens ≠ []) (h : offset ≤ textLength lens) :
    offsetOfPosition lens (positionOfOffset lens offset) = offset := by
  obtain ⟨line, c, heq, hlt, hc, hsum⟩ := positionOfOffsetAux_le lens offset 0 h0 h
  rw [positionOfOffset, heq]
  simp only [Nat.zero_add] at *
  rw [offsetOfPosition]
  simp only [hlt, if_pos]
  rw [lineStart, Nat.min_eq_left hc]
  omega

/-- Document (from the repository's `api` module, not among the provided
sources).  Modelled from the spec: a document is identified by a stable
path, carries a monotonically increasing `version` integer and text
content; its `offsetOfPosition` / `positionOfOffset` conversions use 0-based text
offsets. -/
structure Document where
  filePath : String
  version : Nat
  text : String

/-- Document.offsetAt: 0-based (line, character) to text offset. -/
def Document.offsetAt (d : Document) (pos : Nat × Nat) : Nat :=
  offsetOfPosition (lineLengths d.text) pos

/-- Document.positionAt: text offset to 0-based (line, character). -/
def Document.positionAt (d : Document) (offset : Nat) : Nat × Nat :=
  positionOfOffset (lineLengths d.text) offset

/-- Raw source map artifact produced by the converter (opaque payload). -/
structure RawSourceMap where
  mappings : String
deriving DecidableEq

/-- ts.ScriptKind (the structural kind of a snapshot). -/
inductive ScriptKind where
  | Unknown
  | JS
  | JSX
  | TS
  | TSX
  | External
deriving DecidableEq

/-- External converter `svelte2tsx(text, filePath)`; `none` models a thrown
exception, `some (code, map)` a successful conversion (`map` may itself be
absent). -/
def Converter : Type :=
  String → String → Option (String × Option RawSourceMap)

/-- DocumentSnapshot (DocumentSnapshot.ts lines 6-10): the generated
representation of a document.  The captured `tsxSource` backs `getText` and
`getLength`; it is stored as the `text` field. -/
structure DocumentSnapshot where
  document : Document
  scriptKind : ScriptKind
  map : Option RawSourceMap
  text : String

/-- DocumentSnapshot.fromDocument (DocumentSnapshot.ts lines 13-36): run
the converter inside try/catch; on failure keep the empty generated text
and no map; `scriptKind` is the hard-coded `ts.ScriptKind.TSX` (the
attribute-based computation is commented out in the source). -/
def DocumentSnapshot.fromDocument (convert : Converter) (document : Document) :
    DocumentSnapshot :=
  let res := convert document.text document.filePath
  let tsxSource := match res with
    | some r => r.1
    | none => ""
  let tsxMap := match res with
    | some r => r.2
    | none => none
  { document := document
    map := tsxMap
    scriptKind := ScriptKind.TSX
    text := tsxSource }

/-- Snapshot `getLength` callback (`() => length` with
`length = tsxSource.length`). -/
def DocumentSnapshot.getLength (s : DocumentSnapshot) : Nat := s.text.length

/-- Snapshot `getText` callback (`(start, end) => tsxSource.substring(start, end)`). -/
def DocumentSnapshot.getText (s : DocumentSnapshot) (a b : Nat) : String :=
  String.mk ((s.text.data.take b).drop a)

/-- Parsed source-map consumer (the external `source-map` library object).
`originalPositionFor` / `generatedPositionFor` return `none` for a null
result; a non-null result carries possibly-null line and column fields.
`generatedPositionFor` also receives the `source` file name. -/
structure SourceMapConsumer where
  originalPositionFor : Nat × Nat → Option (Option Nat × Option Nat)
  generatedPositionFor : String → Nat × Nat → Option (Option Nat × Option Nat)

/-- The `{ consumer, original, generated }` triple assembled by
`getSourceMapData` (service.ts lines 225-238): the parsed consumer for the
document (if any), the original document (if a snapshot exists), and the
generated source file, abstracted by its line lengths. -/
structure SourceMapData where
  consumer : Option SourceMapConsumer
  original : Option Document
  generated : Option (List Nat)

/-- isSvelte (typescript/utils, modelled from its use): a `.svelte` path. -/
def isSvelte (fileName : String) : Bool := fileName.endsWith ".svelte"

/-- useSvelteTsxName (service.ts lines 218-223). -/
def useSvelteTsxName (filename : String) : String :=
  if isSvelte filename then filename ++ ".tsx" else filename

/-- originalNameFromSvelteTsx (service.ts lines 199-201):
`filename.substring(0, filename.length - '.tsx'.length)`. -/
def originalNameFromSvelteTsx (filename : String) : String :=
  String.mk (filename.data.take (filename.length - 4))

/-- getOriginalIndexForFileName (service.ts lines 240-252): translate a
generated-file offset to an original-document offset.  Identity when any
of consumer / original / generated is missing; otherwise convert the
offset to a 0-based position in the generated file, query the consumer at
that position plus one on each coordinate, convert the (possibly null)
result back subtracting one from each coordinate, falling back to the
generated position itself when the lookup returns null, and finally turn
the position into an offset against the original document. -/
def getOriginalIndexForFileName (d : SourceMapData) : Nat → Nat :=
  fun index =>
    match d.consumer, d.original, d.generated with
    | some consumer, some original, some generated =>
      let generatedPosition := positionOfOffset generated index
      let res := consumer.originalPositionFor
        (generatedPosition.1 + 1, generatedPosition.2 + 1)
      let originalPosition :=
        match res with
        | some r => (jsOr r.1 1 - 1, jsOr r.2 1 - 1)
        | none => generatedPosition
      original.offsetAt originalPosition
    | _, _, _ => index

/-- getGeneratedIndexForFileName (service.ts lines 254-278): translate an
original-document offset to a generated-file offset, passing
`originalNameFromSvelteTsx fileName` as the map `source`; same boundary
arithmetic and fallbacks as the other direction. -/
def getGeneratedIndexForFileName (fileName : String) (d : SourceMapData) : Nat → Nat :=
  fun index =>
    match d.consumer, d.original, d.generated with
    | some consumer, some original, some generated =>
      let originalPosition := original.positionAt index
      let res := consumer.generatedPositionFor (originalNameFromSvelteTsx fileName)
        (originalPosition.1 + 1, originalPosition.2 + 1)
      let generatedPosition :=
        match res with
        | some r => (jsOr r.1 1 - 1, jsOr r.2 1 - 1)
        | none => originalPosition
      offsetOfPosition generated generatedPosition
    | _, _, _ => index

/-- First-match lookup in an association list keyed by strings (the
behaviour of a JavaScript `Map.get` under the prepend-on-set encoding
below). -/
def lookupKey {β : Type} (k : String) : List (String × β) → Option β
  | [] => none
  | (k', v) :: rest => if k = k' then some v else lookupKey k rest

/-- Remove every binding of a key (JavaScript `Map.delete`). -/
def eraseKey {β : Type} (k : String) : List (String × β) → List (String × β)
  | [] => []
  | (k', v) :: rest =>
    if k = k' then eraseKey k rest else (k', v) :: eraseKey k rest

/-- State of one `createLanguageService` container from the restartable
variant (part_000 lines 61-190): the per-container `documents` map and the
current `languageService` instance, identified by a generation number
(`ts.createLanguageService` always yields a fresh identity, modelled by
incrementing the generation). -/
structure ContainerState where
  documents : List (String × DocumentSnapshot)
  engine : Nat

/-- updateDocument (part_000 lines 157-168): recompute the snapshot, and if
a previous snapshot exists for the path with a different `scriptKind`,
dispose the language service and create a fresh one; then store the new
snapshot and return the (possibly new) language service. -/
def Container.updateDocument (convert : Converter) (st : ContainerState)
    (document : Document) : ContainerState × Nat :=
  let preSnapshot := lookupKey document.filePath st.documents
  let newSnapshot := DocumentSnapshot.fromDocument convert document
  let st1 :=
    match preSnapshot with
    | some pre =>
      if pre.scriptKind ≠ newSnapshot.scriptKind then
        { st with engine := st.engine + 1 }
      else st
    | none => st
  let st2 := { st1 with
    documents := (document.filePath, newSnapshot) :: st1.documents }
  (st2, st2.engine)

/-- getSourceMap (part_000 lines 170-174) restricted to the stored-snapshot
path of `getSvelteSnapshot` (the on-demand branch reads the file system,
an external effect). -/
def Container.getSourceMap (st : ContainerState) (document : Document) :
    Option RawSourceMap :=
  match lookupKey document.filePath st.documents with
  | some snap => snap.map
  | none => none

/-- The module-level `services` registry (service.ts / part_000 line 12):
configuration path to container.  Containers are identified by their
creation index `nextId` (reference identity). -/
structure Registry where
  services : List (String × Nat)
  nextId : Nat

/-- The initial, empty registry. -/
def emptyRegistry : Registry := { services := [], nextId := 0 }

/-- getLanguageServiceForDocument (service.ts / part_000 lines 17-36),
registry part: resolve the document's configuration path (the
`findConfigFile` search over the containing directory, an external file
system query, is the `resolveConfig` parameter; the empty string denotes
no configuration), then reuse the registered container for that path or
create and register a fresh one.  Returns the container identity that
serves the document. -/
def getLanguageServiceForDocument (resolveConfig : String → String)
    (reg : Registry) (document : Document) : Registry × Nat :=
  let tsconfigPath := resolveConfig document.filePath
  match lookupKey tsconfigPath reg.services with
  | some service => (reg, service)
  | none =>
    ({ services := (tsconfigPath, reg.nextId) :: reg.services,
       nextId := reg.nextId + 1 }, reg.nextId)

/-- Run a sequence of `getLanguageServiceForDocument` calls, collecting the
container identity returned by each call. -/
def runServices (resolveConfig : String → String) (reg : Registry) :
    List Document → Registry × List Nat
  | [] => (reg, [])
  | d :: ds =>
    let r1 := getLanguageServiceForDocument resolveConfig reg d
    let r2 := runServices resolveConfig r1.1 ds
    (r2.1, r1.2 :: r2.2)

/-- A cached parsed consumer entry (`{version, consumer}`, service.ts
line 13). -/
structure ConsumerEntry where
  version : Nat
  consumer : SourceMapConsumer

/-- State of one container of the async variant (service.ts lines 38-311):
the per-container `documents` map plus the module-level `consumers` cache.
The source keys `consumers` by the `Document` object; since the host keeps
one live document object per path, the cache is keyed here by the file
path. -/
structure SvcState where
  documents : List (String × DocumentSnapshot)
  consumers : List (String × ConsumerEntry)

/-- updateDocument (service.ts lines 291-308): store the fresh snapshot
under the `.svelte.tsx` name; if it has a map, rebuild the parsed consumer
(`new SourceMapConsumer(newSnapshot.map)`, the external parse is the
`parse` parameter) only when the cached entry is missing or its version
differs from the document's, otherwise reuse the cached entry unchanged;
if the snapshot has no map, drop the cached entry. -/
def Svc.updateDocument (convert : Converter) (parse : RawSourceMap → SourceMapConsumer)
    (st : SvcState) (document : Document) : SvcState :=
  let newSnapshot := DocumentSnapshot.fromDocument convert document
  let documents1 := (useSvelteTsxName document.filePath, newSnapshot) :: st.documents
  match newSnapshot.map with
  | some m =>
    match lookupKey document.filePath st.consumers with
    | some consumer =>
      if consumer.version ≠ document.version then
        { documents := documents1
          consumers := (document.filePath,
            { version := document.version, consumer := parse m }) :: st.consumers }
      else { st with documents := documents1 }
    | none =>
      { documents := documents1
        consumers := (document.filePath,
          { version := document.version, consumer := parse m }) :: st.consumers }
  | none =>
    { documents := documents1
      consumers := eraseKey document.filePath st.consumers }

/-- An editor range; `endPos` stands for the source's `end` field (a Lean
keyword).  Positions are (line, character) pairs whose base depends on the
producing code path. -/
structure Range where
  start : Nat × Nat
  endPos : Nat × Nat
deriving DecidableEq

/-- A `ts.Diagnostic` as consumed by the plugin: optional start offset and
length, the category, code and flattened message, and the diagnostic's
`file` (abstracted, like every text, by its line lengths; `none` for
engine-global diagnostics). -/
structure TsDiagnostic where
  start : Option Nat
  length : Option Nat
  category : Nat
  code : Nat
  message : String
  file : Option (List Nat)

/-- A protocol diagnostic produced by the plugin. -/
structure LspDiagnostic where
  range : Range
  severity : Nat
  source : String
  message : String
  code : Nat
deriving DecidableEq

/-- mapDiagnosticLocationToRange (TSSveltePlugin.ts lines 97-131): without
a diagnostic file or start offset fall back to `convertRange`; otherwise
build 1-based start/end positions from the generated file, and for each of
them overwrite line and column with the consumer's answer using `|| 0`
(keeping the 1-based position when the lookup returns null). -/
def mapDiagnosticLocationToRange (convertRange : Document → TsDiagnostic → Range)
    (diagnostic : TsDiagnostic) (document : Document)
    (consumer : SourceMapConsumer) : Range :=
  match diagnostic.file, diagnostic.start with
  | none, _ => convertRange document diagnostic
  | some _, none => convertRange document diagnostic
  | some file, some dstart =>
    let s := positionOfOffset file dstart
    let start1 := (s.1 + 1, s.2 + 1)
    let end1 :=
      match diagnostic.length with
      | some len =>
        let e := positionOfOffset file (dstart + len)
        (e.1 + 1, e.2 + 1)
      | none => start1
    let adjust := fun (pos : Nat × Nat) =>
      match consumer.originalPositionFor pos with
      | some res => (jsOr res.1 0, jsOr res.2 0)
      | none => pos
    { start := adjust start1, endPos := adjust end1 }

/-- State owned by the plugin instance: its `consumers` cache
(TSSveltePlugin.ts line 43), keyed like `SvcState.consumers`. -/
structure PluginState where
  consumers : List (String × ConsumerEntry)

/-- getDiagnostics (TSSveltePlugin.ts lines 61-95).  The language-service
call is abstracted by the `diagnostics` the engine returns and
`getSourceMapForDocument` by `sourceMap`; `convertRange` and `mapSeverity`
come from `typescript/utils` (not among the sources) and stay abstract.
The outer `decoder` is declared null; the `if (sourceMap)` block declares
a new shadowing `decoder` binding (`let decoder = this.consumers.get(...)`)
whose reassignment and `consumers.set` update only the inner binding and
the cache, exactly as in the source; the final mapping then reads the
outer binding. -/
def TSSveltePlugin.getDiagnostics (enabled : Bool)
    (convertRange : Document → TsDiagnostic → Range) (mapSeverity : Nat → Nat)
    (parse : RawSourceMap → SourceMapConsumer) (diagnostics : List TsDiagnostic)
    (sourceMap : Option RawSourceMap) (document : Document)
    (st : PluginState) : PluginState × List LspDiagnostic :=
  if enabled = false then (st, [])
  else
    let decoder : Option ConsumerEntry := none
    let st1 :=
      match sourceMap with
      | some m =>
        let decoderInner := lookupKey document.filePath st.consumers
        match decoderInner with
        | some d =>
          if d.version ≠ document.version then
            { consumers := (document.filePath,
                { version := document.version, consumer := parse m }) :: st.consumers }
          else st
        | none =>
          { consumers := (document.filePath,
              { version := document.version, consumer := parse m }) :: st.consumers }
      | none => st
    (st1, diagnostics.map fun diagnostic =>
      { range :=
          match decoder with
          | some dec =>
            mapDiagnosticLocationToRange convertRange diagnostic document dec.consumer
          | none => convertRange document diagnostic
        severity := mapSeverity diagnostic.category
        source := "ts-svelte"
        message := diagnostic.message
        code := diagnostic.code })

/-- A `ts.TextSpan`. -/
structure TextSpan where
  start : Nat
  length : Nat
deriving DecidableEq

/-- A `ts.NavigationTree` node: text, kind, span list and children. -/
inductive NavigationTree where
  | node (text : String) (kind : String) (spans : List TextSpan)
      (childItems : List NavigationTree)

/-- A protocol symbol as assembled by `SymbolInformation.create`. -/
structure SymbolInformation where
  name : String
  kind : String
  range : Range
  uri : String
  containerName : Option String
deriving DecidableEq

mutual

/-- collectSymbols (part_001 lines 142-168): emit a symbol for the node
when both `spans[0]` and `spans[spans.length - 1]` exist, then recurse into
the children with this node's text as their container; symbols are listed
in the source's push order (pre-order). -/
def collectSymbols (document : Document) (tree : NavigationTree)
    (container : Option String) : List SymbolInformation :=
  match tree with
  | .node text kind spans childItems =>
    let here :=
      match spans.head?, spans.getLast? with
      | some s, some e =>
        [{ name := text
           kind := kind
           range := { start := document.positionAt s.start
                      endPos := document.positionAt (e.start + e.length) }
           uri := document.filePath
           containerName := container }]
      | _, _ => []
    here ++ collectSymbolsList document childItems text

/-- Children loop of `collectSymbols`. -/
def collectSymbolsList (document : Document) (trees : List NavigationTree)
    (parent : String) : List SymbolInformation :=
  match trees with
  | [] => []
  | t :: ts =>
    collectSymbols document t (some parent) ++ collectSymbolsList document ts parent

end

/-- getDocumentSymbols (part_001 lines 122-141): collect the symbols of the
navigation tree, then read `symbols[0].name` with no emptiness check — on
an empty collection this element access faults (modelled by `none`) instead
of yielding a result; otherwise drop the first symbol and rewrite the
container name of the remaining symbols that sat directly under it. -/
def getDocumentSymbols (enabled : Bool) (document : Document)
    (navTree : NavigationTree) : Option (List SymbolInformation) :=
  if enabled = false then some []
  else
    match collectSymbols document navTree none with
    | [] => none
    | first :: restSyms =>
      let topContainerName := first.name
      some (restSyms.map fun symbol =>
        if symbol.containerName = some topContainerName then
          { symbol with containerName := some "script" }
        else symbol)

/-- Sample original document used by concrete instantiations. -/
def wDoc : Document := { filePath := "a.svelte", version := 0, text := "let x" }

/-- Sample second document (other path, same configuration directory). -/
def wDocB : Document := { filePath := "b.svelte", version := 0, text := "" }

/-- Sample document at version 1. -/
def wDocV1 : Document := { filePath := "a.svelte", version := 1, text := "let y" }

/-- Line lengths of a sample generated file (one line of 10 characters). -/
def wGenLens : List Nat := [10]

/-- Sample consumer: one mapping pair, generated (1,5) ↔ original (1,4)
in the 1-based coordinates the mapper layer sends, null elsewhere. -/
def wConsumer : SourceMapConsumer :=
  { originalPositionFor := fun p => if p = (1, 5) then some (some 1, some 4) else none
    generatedPositionFor := fun _ p => if p = (1, 4) then some (some 1, some 5) else none }

/-- Sample assembled source-map data. -/
def wData : SourceMapData :=
  { consumer := some wConsumer, original := some wDoc, generated := some wGenLens }

/-- Sample source-map data with no parsed consumer. -/
def wNoConsumerData : SourceMapData :=
  { consumer := none, original := some wDoc, generated := some wGenLens }

/-- Sample snapshot whose kind is not TSX (constructible state; the
snapshot type itself does not fix the kind). -/
def wSnapshotTS : DocumentSnapshot :=
  { document := wDoc, scriptKind := ScriptKind.TS, map := none, text := "" }

/-- Sample container state holding a TS-kind snapshot. -/
def wContainerState : ContainerState :=
  { documents := [("a.svelte", wSnapshotTS)], engine := 0 }

/-- Sample converter that always succeeds with empty output and no map. -/
def wConvertOk : Converter := fun _ _ => some ("", none)

/-- Sample converter that always throws. -/
def wConvertFail : Converter := fun _ _ => none

/-- Sample raw map artifact. -/
def wMap : RawSourceMap := { mappings := "AAAA" }

/-- Sample converter that succeeds with a map artifact. -/
def wConvertMap : Converter := fun _ _ => some ("x", some wMap)

/-- Sample external map parse. -/
def wParse : RawSourceMap → SourceMapConsumer := fun _ => wConsumer

/-- Sample cached consumer entry at version 0. -/
def wConsumerEntry : ConsumerEntry := { version := 0, consumer := wConsumer }

/-- Sample async-container state with a cached consumer for `a.svelte`. -/
def wSvcState : SvcState :=
  { documents := [], consumers := [("a.svelte", wConsumerEntry)] }

theorem jsOr_of_pos (n d : Nat) (h : 1 ≤ n) : jsOr (some n) d = n := by
  match n with
  | 0 => exact absurd h (by simp)
  | m + 1 => rfl

/-- C1: at the mapper's boundary the conversion between the public 0-based
offsets and the 1-based map coordinates is exact: both
`getOriginalIndexForFileName` and `getGeneratedIndexForFileName` query the
map at the 0-based (line, character) of the input offset with exactly 1
added to each coordinate, and convert a non-null result back with exactly
1 subtracted from each coordinate before turning it into an offset. -/
theorem mapper_boundary_one_based_exact (c : SourceMapConsumer) (o : Document)
    (g : List Nat) (fileName : String) (idx : Nat) :
    (∀ gl gc L C,
      positionOfOffset g idx = (gl, gc) →
      c.originalPositionFor (gl + 1, gc + 1) = some (some L, some C) →
      1 ≤ L → 1 ≤ C →
      getOriginalIndexForFileName ⟨some c, some o, some g⟩ idx
        = o.offsetAt (L - 1, C - 1))
    ∧ (∀ ol oc L C,
      o.positionAt idx = (ol, oc) →
      c.generatedPositionFor (originalNameFromSvelteTsx fileName) (ol + 1, oc + 1)
        = some (some L, some C) →
      1 ≤ L → 1 ≤ C →
      getGeneratedIndexForFileName fileName ⟨some c, some o, some g⟩ idx
        = offsetOfPosition g (L - 1, C - 1)) := by
  constructor
  · intro gl gc L C hpos hres hL hC
    simp only [getOriginalIndexForFileName, hpos, hres, jsOr_of_pos L 1 hL,
      jsOr_of_pos C 1 hC]
  · intro ol oc L C hpos hres hL hC
    simp only [getGeneratedIndexForFileName, hpos, hres, jsOr_of_pos L 1 hL,
      jsOr_of_pos C 1 hC]

theorem mapper_boundary_one_based_exact_witness :
    getOriginalIndexForFileName wData 4 = wDoc.offsetAt (0, 3)
    ∧ getGeneratedIndexForFileName "a.svelte.tsx" wData 3 = offsetOfPosition wGenLens (0, 4) :=
  ⟨(mapper_boundary_one_based_exact wConsumer wDoc wGenLens "a.svelte.tsx" 4).1
      0 4 1 4 (by decide) (by decide) (by decide) (by decide),
   (mapper_boundary_one_based_exact wConsumer wDoc wGenLens "a.svelte.tsx" 3).2
      0 3 1 5 (by decide) (by decide) (by decide) (by decide)⟩

/-- C3: round trip.  If the position map holds an unambiguous one-to-one
correspondence for the offset's position — `generatedPositionFor` answers
a definite in-bounds generated position whose `originalPositionFor` answer
is exactly the original position again — then translating an original
offset to the generated file and back yields the offset unchanged. -/
theorem mapper_roundtrip (c : SourceMapConsumer) (o : Document) (g : List Nat)
    (fileName : String) (idx ol oc gl gc : Nat)
    (hpos : o.positionAt idx = (ol, oc))
    (h1 : c.generatedPositionFor (originalNameFromSvelteTsx fileName) (ol + 1, oc + 1)
        = some (some gl, some gc))
    (hgl : 1 ≤ gl) (hgc : 1 ≤ gc)
    (hglb : gl - 1 < g.length) (hgcb : gc - 1 ≤ g.getD (gl - 1) 0)
    (h2 : c.originalPositionFor (gl, gc) = some (some (ol + 1), some (oc + 1)))
    (hidx : idx ≤ textLength (lineLengths o.text)) :
    getOriginalIndexForFileName ⟨some c, some o, some g⟩
      (getGeneratedIndexForFileName fileName ⟨some c, some o, some g⟩ idx) = idx := by
  have hgen : getGeneratedIndexForFileName fileName ⟨some c, some o, some g⟩ idx
      = offsetOfPosition g (gl - 1, gc - 1) := by
    simp only [getGeneratedIndexForFileName, hpos, h1, jsOr_of_pos gl 1 hgl,
      jsOr_of_pos gc 1 hgc]
  rw [hgen]
  have hround : positionOfOffset g (offsetOfPosition g (gl - 1, gc - 1)) = (gl - 1, gc - 1) :=
    positionOfOffset_offsetOfPosition g (gl - 1) (gc - 1) hglb hgcb
  have hq1 : gl - 1 + 1 = gl := Nat.succ_pred_eq_of_pos hgl
  have hq2 : gc - 1 + 1 = gc := Nat.succ_pred_eq_of_pos hgc
  simp only [getOriginalIndexForFileName, hround, hq1, hq2, h2]
  have hL : jsOr (some (ol + 1)) 1 - 1 = ol := by rw [jsOr_of_pos (ol + 1) 1 (by omega)]; omega
  have hC : jsOr (some (oc + 1)) 1 - 1 = oc := by rw [jsOr_of_pos (oc + 1) 1 (by omega)]; omega
  rw [hL, hC]
  have : o.offsetAt (ol, oc) = idx := by
    rw [Document.offsetAt, ← hpos, Document.positionAt]
    exact offsetOfPosition_positionOfOffset (lineLengths o.text) idx (lineLengths_ne_nil o.text) hidx
  exact this

theorem mapper_roundtrip_witness :
    getOriginalIndexForFileName wData
      (getGeneratedIndexForFileName "a.svelte.tsx" wData 3) = 3 :=
  mapper_roundtrip wConsumer wDoc wGenLens "a.svelte.tsx" 3 0 3 1 5
    (by decide) (by decide) (by decide) (by decide) (by decide) (by decide)
    (by decide) (by decide)

/-- C4: position translation fallbacks.  When the consumer, original
document or generated file is missing, both directions return the input
offset unchanged.  When everything is present but the map lookup answers
null for the queried position, each direction falls back to the position
obtained from the line/column conversion alone, converted against the
target text. -/
theorem mapper_fallbacks (d : SourceMapData) (fileName : String) (idx : Nat) :
    ((d.consumer = none ∨ d.original = none ∨ d.generated = none) →
      getOriginalIndexForFileName d idx = idx
      ∧ getGeneratedIndexForFileName fileName d idx = idx)
    ∧ (∀ c o g, d.consumer = some c → d.original = some o → d.generated = some g →
      (c.originalPositionFor
          ((positionOfOffset g idx).1 + 1, (positionOfOffset g idx).2 + 1) = none →
        getOriginalIndexForFileName d idx = o.offsetAt (positionOfOffset g idx))
      ∧ (c.generatedPositionFor (originalNameFromSvelteTsx fileName)
          ((o.positionAt idx).1 + 1, (o.positionAt idx).2 + 1) = none →
        getGeneratedIndexForFileName fileName d idx
          = offsetOfPosition g (o.positionAt idx))) := by
  obtain ⟨cons, orig, gen⟩ := d
  constructor
  · intro h
    cases cons <;> cases orig <;> cases gen <;>
      simp_all [getOriginalIndexForFileName, getGeneratedIndexForFileName]
  · intro c o g hc ho hg
    simp only at hc ho hg
    subst hc; subst ho; subst hg
    constructor
    · intro hnone
      simp only [getOriginalIndexForFileName, hnone]
    · intro hnone
      simp only [getGeneratedIndexForFileName, hnone]

theorem mapper_fallbacks_witness :
    (getOriginalIndexForFileName wNoConsumerData 7 = 7
      ∧ getGeneratedIndexForFileName "a.svelte.tsx" wNoConsumerData 7 = 7)
    ∧ getOriginalIndexForFileName wData 2 = wDoc.offsetAt (positionOfOffset wGenLens 2)
    ∧ getGeneratedIndexForFileName "a.svelte.tsx" wData 0
        = offsetOfPosition wGenLens (wDoc.positionAt 0) :=
  ⟨(mapper_fallbacks wNoConsumerData "a.svelte.tsx" 7).1 (Or.inl rfl),
   ((mapper_fallbacks wData "a.svelte.tsx" 2).2 wConsumer wDoc wGenLens rfl rfl rfl).1
     (by decide),
   ((mapper_fallbacks wData "a.svelte.tsx" 0).2 wConsumer wDoc wGenLens rfl rfl rfl).2
     (by decide)⟩

theorem upd_restart (convert : Converter) (st : ContainerState)
    (document : Document) (pre : DocumentSnapshot)
    (hpre : lookupKey document.filePath st.documents = some pre)
    (hkind : pre.scriptKind ≠ (DocumentSnapshot.fromDocument convert document).scriptKind) :
    Container.updateDocument convert st document
      = ({ documents := (document.filePath, DocumentSnapshot.fromDocument convert document)
              :: st.documents,
           engine := st.engine + 1 }, st.engine + 1) := by
  simp only [Container.updateDocument, hpre]
  rw [if_pos hkind]

theorem upd_keep (convert : Converter) (st : ContainerState)
    (document : Document) (pre : DocumentSnapshot)
    (hpre : lookupKey document.filePath st.documents = some pre)
    (hkind : pre.scriptKind = (DocumentSnapshot.fromDocument convert document).scriptKind) :
    Container.updateDocument convert st document
      = ({ st with documents :=
            (document.filePath, DocumentSnapshot.fromDocument convert document)
              :: st.documents }, st.engine) := by
  simp only [Container.updateDocument, hpre]
  rw [if_neg (by simp [hkind])]

theorem upd_new (convert : Converter) (st : ContainerState)
    (document : Document)
    (hpre : lookupKey document.filePath st.documents = none) :
    Container.updateDocument convert st document
      = ({ st with documents :=
            (document.filePath, DocumentSnapshot.fromDocument convert document)
              :: st.documents }, st.engine) := by
  simp only [Container.updateDocument, hpre]

/-- C2: restart on structural-kind change.  If a document is already
attached (a previous snapshot is recorded for its path) and the snapshot
produced by this `updateDocument` call has a different `scriptKind`, the
language service is disposed and recreated: the state's engine generation
advances, and the handle returned by the call differs by identity from the
handle held before the change. -/
theorem restart_on_kind_change (convert : Converter) (st : ContainerState)
    (document : Document) (pre : DocumentSnapshot)
    (hpre : lookupKey document.filePath st.documents = some pre)
    (hkind : pre.scriptKind ≠ (DocumentSnapshot.fromDocument convert document).scriptKind) :
    (Container.updateDocument convert st document).1.engine = st.engine + 1
    ∧ (Container.updateDocument convert st document).2 ≠ st.engine
    ∧ (Container.updateDocument convert st document).2
        = (Container.updateDocument convert st document).1.engine := by
  rw [upd_restart convert st document pre hpre hkind]
  exact ⟨rfl, by omega, rfl⟩

theorem restart_on_kind_change_witness :
    (Container.updateDocument wConvertOk wContainerState wDoc).1.engine
        = wContainerState.engine + 1
    ∧ (Container.updateDocument wConvertOk wContainerState wDoc).2 ≠ wContainerState.engine
    ∧ (Container.updateDocument wConvertOk wContainerState wDoc).2
        = (Container.updateDocument wConvertOk wContainerState wDoc).1.engine :=
  restart_on_kind_change wConvertOk wContainerState wDoc wSnapshotTS rfl (by decide)

/-- C9: `DocumentSnapshot.fromDocument` hard-codes `scriptKind` to TSX for
every converter and document, so whenever every stored snapshot has kind
TSX (which holds in every reachable state and is preserved by the update),
the dispose-and-recreate branch of `updateDocument` is never taken: the
engine generation is unchanged and the returned handle is the pre-existing
one. -/
theorem script_kind_always_tsx (convert : Converter) (st : ContainerState)
    (document : Document)
    (hinv : ∀ p s, lookupKey p st.documents = some s → s.scriptKind = ScriptKind.TSX) :
    (DocumentSnapshot.fromDocument convert document).scriptKind = ScriptKind.TSX
    ∧ (Container.updateDocument convert st document).1.engine = st.engine
    ∧ (Container.updateDocument convert st document).2 = st.engine
    ∧ (∀ p s, lookupKey p (Container.updateDocument convert st document).1.documents
        = some s → s.scriptKind = ScriptKind.TSX) := by
  have hred : Container.updateDocument convert st document
      = ({ st with documents :=
            (document.filePath, DocumentSnapshot.fromDocument convert document)
              :: st.documents }, st.engine) := by
    cases hpre : lookupKey document.filePath st.documents with
    | none => exact upd_new convert st document hpre
    | some pre => exact upd_keep convert st document pre hpre (hinv _ _ hpre)
  refine ⟨rfl, by rw [hred], by rw [hred], ?_⟩
  rw [hred]
  intro p s hl
  simp only [lookupKey] at hl
  by_cases hp : p = document.filePath
  · rw [if_pos hp] at hl
    cases hl
    rfl
  · rw [if_neg hp] at hl
    exact hinv p s hl

theorem script_kind_always_tsx_witness :
    (DocumentSnapshot.fromDocument wConvertOk wDoc).scriptKind = ScriptKind.TSX
    ∧ (Container.updateDocument wConvertOk { documents := [], engine := 3 } wDoc).1.engine = 3
    ∧ (Container.updateDocument wConvertOk { documents := [], engine := 3 } wDoc).2 = 3
    ∧ (∀ p s, lookupKey p
        (Container.updateDocument wConvertOk { documents := [], engine := 3 } wDoc).1.documents
          = some s → s.scriptKind = ScriptKind.TSX) :=
  script_kind_always_tsx wConvertOk { documents := [], engine := 3 } wDoc
    (by intro p s h; simp [lookupKey] at h)

/-- C5: converter failure degrades to an empty snapshot.  When the
converter throws, `fromDocument` returns a snapshot with empty generated
text, `getLength () = 0` and no map, and `updateDocument` still completes:
it stores exactly that snapshot and hands back the container's live
engine. -/
theorem converter_failure_empty_snapshot (convert : Converter) (st : ContainerState)
    (document : Document)
    (hfail : convert document.text document.filePath = none) :
    (DocumentSnapshot.fromDocument convert document).text = ""
    ∧ (DocumentSnapshot.fromDocument convert document).getLength = 0
    ∧ (DocumentSnapshot.fromDocument convert document).map = none
    ∧ lookupKey document.filePath (Container.updateDocument convert st document).1.documents
        = some (DocumentSnapshot.fromDocument convert document)
    ∧ (Container.updateDocument convert st document).2
        = (Container.updateDocument convert st document).1.engine := by
  refine ⟨?_, ?_, ?_, ?_, rfl⟩
  · simp [DocumentSnapshot.fromDocument, hfail]
  · simp [DocumentSnapshot.fromDocument, DocumentSnapshot.getLength, hfail]
  · simp [DocumentSnapshot.fromDocument, hfail]
  · have hdocs : (Container.updateDocument convert st document).1.documents
        = (document.filePath, DocumentSnapshot.fromDocument convert document)
            :: (match lookupKey document.filePath st.documents with
                | some pre =>
                  if pre.scriptKind ≠ (DocumentSnapshot.fromDocument convert document).scriptKind
                  then { st with engine := st.engine + 1 } else st
                | none => st).documents := rfl
    rw [hdocs]
    simp [lookupKey]

theorem converter_failure_empty_snapshot_witness :
    (DocumentSnapshot.fromDocument wConvertFail wDoc).text = ""
    ∧ (DocumentSnapshot.fromDocument wConvertFail wDoc).getLength = 0
    ∧ (DocumentSnapshot.fromDocument wConvertFail wDoc).map = none
    ∧ lookupKey wDoc.filePath
        (Container.updateDocument wConvertFail wContainerState wDoc).1.documents
          = some (DocumentSnapshot.fromDocument wConvertFail wDoc)
    ∧ (Container.updateDocument wConvertFail wContainerState wDoc).2
        = (Container.updateDocument wConvertFail wContainerState wDoc).1.engine :=
  converter_failure_empty_snapshot wConvertFail wContainerState wDoc rfl

theorem lookupKey_cons {β : Type} (k k' : String) (v : β) (l : List (String × β)) :
    lookupKey k ((k', v) :: l) = if k = k' then some v else lookupKey k l := rfl

theorem getService_lookup_mono (f : String → String) (reg : Registry) (d : Document)
    (p : String) (s : Nat) (h : lookupKey p reg.services = some s) :
    lookupKey p (getLanguageServiceForDocument f reg d).1.services = some s := by
  simp only [getLanguageServiceForDocument]
  cases hq : lookupKey (f d.filePath) reg.services with
  | some v => exact h
  | none =>
    rw [lookupKey_cons]
    by_cases hpq : p = f d.filePath
    · subst hpq
      rw [h] at hq
      exact absurd hq (by simp)
    · rw [if_neg hpq]
      exact h

theorem getService_lookup_self (f : String → String) (reg : Registry) (d : Document) :
    lookupKey (f d.filePath) (getLanguageServiceForDocument f reg d).1.services
      = some (getLanguageServiceForDocument f reg d).2 := by
  simp only [getLanguageServiceForDocument]
  cases hq : lookupKey (f d.filePath) reg.services with
  | some v => exact hq
  | none => simp [lookupKey_cons]

theorem runServices_lookup_mono (f : String → String) (ds : List Document)
    (reg : Registry) (p : String) (s : Nat) (h : lookupKey p reg.services = some s) :
    lookupKey p (runServices f reg ds).1.services = some s := by
  induction ds generalizing reg with
  | nil => exact h
  | cons d ds ih =>
    simp only [runServices]
    exact ih _ (getService_lookup_mono f reg d p s h)

theorem runServices_lookup (f : String → String) (d0 : Document) (ds : List Document) :
    ∀ (reg : Registry) (i : Nat), i < ds.length →
      lookupKey (f ((ds.getD i d0).filePath)) (runServices f reg ds).1.services
        = some ((runServices f reg ds).2.getD i 0) := by
  induction ds with
  | nil => intro reg i h; simp at h
  | cons d ds ih =>
    intro reg i hi
    match i with
    | 0 =>
      simp only [runServices, List.getD_cons_zero]
      exact runServices_lookup_mono f ds _ _ _ (getService_lookup_self f reg d)
    | i + 1 =>
      simp only [runServices, List.getD_cons_succ]
      exact ih _ i (by simpa using hi)

theorem lookupKey_none_not_mem {β : Type} (k : String) (l : List (String × β))
    (h : lookupKey k l = none) : k ∉ l.map Prod.fst := by
  induction l with
  | nil => simp
  | cons a l ih =>
    obtain ⟨k', v⟩ := a
    rw [lookupKey_cons] at h
    by_cases hk : k = k'
    · rw [if_pos hk] at h
      exact absurd h (by simp)
    · rw [if_neg hk] at h
      simp only [List.map_cons, List.mem_cons]
      push_neg
      exact ⟨hk, ih h⟩

theorem getService_nodup (f : String → String) (reg : Registry) (d : Document)
    (h : (reg.services.map Prod.fst).Nodup) :
    ((getLanguageServiceForDocument f reg d).1.services.map Prod.fst).Nodup := by
  simp only [getLanguageServiceForDocument]
  cases hq : lookupKey (f d.filePath) reg.services with
  | some v => exact h
  | none =>
    simp only [List.map_cons, List.nodup_cons]
    exact ⟨lookupKey_none_not_mem _ _ hq, h⟩

theorem runServices_nodup (f : String → String) (ds : List Document) (reg : Registry)
    (h : (reg.services.map Prod.fst).Nodup) :
    ((runServices f reg ds).1.services.map Prod.fst).Nodup := by
  induction ds generalizing reg with
  | nil => exact h
  | cons d ds ih =>
    simp only [runServices]
    exact ih _ (getService_nodup f reg d h)

/-- C6: one container per configuration path.  Over any sequence of
`getLanguageServiceForDocument` calls starting from the empty registry,
any two calls whose documents resolve to the same configuration path
(including the empty path for no configuration) are answered by the
identical container, and the final registry holds at most one container
per distinct configuration path (its keys are pairwise distinct). -/
theorem registry_single_instance (f : String → String) (d0 : Document)
    (docs : List Document) (i j : Nat) (hi : i < docs.length) (hj : j < docs.length)
    (hp : f ((docs.getD i d0).filePath) = f ((docs.getD j d0).filePath)) :
    (runServices f emptyRegistry docs).2.getD i 0
        = (runServices f emptyRegistry docs).2.getD j 0
    ∧ ((runServices f emptyRegistry docs).1.services.map Prod.fst).Nodup := by
  constructor
  · have h1 := runServices_lookup f d0 docs emptyRegistry i hi
    have h2 := runServices_lookup f d0 docs emptyRegistry j hj
    rw [hp] at h1
    rw [h1] at h2
    exact Option.some.inj h2
  · exact runServices_nodup f docs emptyRegistry (by simp [emptyRegistry])

theorem registry_single_instance_witness :
    (runServices (fun _ => "tsconfig.json") emptyRegistry [wDoc, wDocB]).2.getD 0 0
        = (runServices (fun _ => "tsconfig.json") emptyRegistry [wDoc, wDocB]).2.getD 1 0
    ∧ (((runServices (fun _ => "tsconfig.json") emptyRegistry [wDoc, wDocB]).1.services.map
        Prod.fst).Nodup) :=
  registry_single_instance (fun _ => "tsconfig.json") wDoc [wDoc, wDocB] 0 1
    (by simp) (by simp) rfl

/-- C7: the parsed consumer is rebuilt only on a version change.  With a
cached entry present and the new snapshot carrying a map: if the cached
version equals the document's version the cache is left untouched (the
existing consumer is reused); if it differs (in particular after an update
from v1 to v2 > v1) the entry any subsequent translation reads for the
document is the consumer parsed from the new snapshot's map at the
document's current version — never the stale one. -/
theorem consumer_rebuilt_only_on_version_change (convert : Converter)
    (parse : RawSourceMap → SourceMapConsumer) (st : SvcState) (document : Document)
    (m : RawSourceMap) (entry : ConsumerEntry)
    (hmap : (DocumentSnapshot.fromDocument convert document).map = some m)
    (hlook : lookupKey document.filePath st.consumers = some entry) :
    (entry.version = document.version →
      (Svc.updateDocument convert parse st document).consumers = st.consumers)
    ∧ (entry.version ≠ document.version →
      lookupKey document.filePath (Svc.updateDocument convert parse st document).consumers
        = some { version := document.version, consumer := parse m }) := by
  constructor
  · intro hv
    simp only [Svc.updateDocument, hmap, hlook]
    rw [if_neg (by simp [hv])]
  · intro hv
    simp only [Svc.updateDocument, hmap, hlook]
    rw [if_pos hv]
    simp [lookupKey]

theorem consumer_rebuilt_only_on_version_change_witness :
    (Svc.updateDocument wConvertMap wParse wSvcState wDoc).consumers = wSvcState.consumers
    ∧ lookupKey "a.svelte" (Svc.updateDocument wConvertMap wParse wSvcState wDocV1).consumers
        = some { version := 1, consumer := wParse wMap } :=
  ⟨(consumer_rebuilt_only_on_version_change wConvertMap wParse wSvcState wDoc wMap
      wConsumerEntry rfl rfl).1 rfl,
   (consumer_rebuilt_only_on_version_change wConvertMap wParse wSvcState wDocV1 wMap
      wConsumerEntry rfl rfl).2 (by decide)⟩

/-- C8: because the `if (sourceMap)` block of `getDiagnostics` declares a
new shadowing `decoder` binding, the outer `decoder` read by the result
mapping is always null: for every input — any source map, cache state,
parse function and engine diagnostics — every returned diagnostic's range
comes from `convertRange` on the raw generated-coordinate diagnostic, and
the `mapDiagnosticLocationToRange` path is never taken. -/
theorem diagnostics_range_always_convert_range (enabled : Bool)
    (convertRange : Document → TsDiagnostic → Range) (mapSeverity : Nat → Nat)
    (parse : RawSourceMap → SourceMapConsumer) (diagnostics : List TsDiagnostic)
    (sourceMap : Option RawSourceMap) (document : Document) (st : PluginState) :
    (TSSveltePlugin.getDiagnostics enabled convertRange mapSeverity parse diagnostics
        sourceMap document st).2
      = if enabled then
          diagnostics.map (fun diagnostic =>
            { range := convertRange document diagnostic
              severity := mapSeverity diagnostic.category
              source := "ts-svelte"
              message := diagnostic.message
              code := diagnostic.code })
        else [] := by
  cases enabled with
  | false => rfl
  | true => rfl

/-- C10: `getDocumentSymbols` reads the first collected symbol with no
emptiness check: with the feature enabled it completes normally exactly
when the navigation tree yields at least one symbol, and on an empty
collection the first-element access faults (no result) instead of
producing an empty list. -/
theorem document_symbols_need_nonempty (document : Document) (navTree : NavigationTree) :
    getDocumentSymbols true document navTree = none
      ↔ collectSymbols document navTree none = [] := by
  simp only [getDocumentSymbols]
  cases h : collectSymbols document navTree none with
  | nil => simp
  | cons first restSyms => simp
